import Mathlib

/-!
Verification of the `rust-websocket` (PeterCxy fork) handshake and masking
core against its natural-language specification.

The development shallowly embeds the relevant Rust source files:
  * `src/header/sec_websocket_accept.rs` (`WebSocketAccept::new`, `Display`)
  * `src/header/sec_websocket_key.rs` (`WebSocketKey::from_str`, `Display`)
  * `src/header/sec_websocket_version.rs`, `connection.rs`, `upgrade.rs`
  * `src/server/upgrade/mod.rs` (`validate`, `prepare_headers`)
  * `src/server/upgrade/sync.rs` (`into_ws` for raw streams)
  * `src/codec/http.rs` (`split_off_http`, `HttpServerCodec::decode`)
  * `src/ws/util/mask.rs` (`mask_data`)

Bytes are modelled as `Nat` (always `< 256` where produced by the code);
machine 32-bit arithmetic in SHA-1 is explicit arithmetic `% 2^32`.
External crates used by the code (`sha1`, `base64` 0.x, `httparse`, `http`)
are modelled from their documented behaviour at the granularity the claims
need; in particular `base64::decode` in the 0.x series accepts unpadded
input (padding became mandatory only much later, in 0.21).
-/

set_option maxRecDepth 8192

namespace RW

/-! ## 32-bit arithmetic and SHA-1 (model of the `sha1` crate) -/

/-- Truncate to 32 bits. -/
def u32 (x : Nat) : Nat := x % 4294967296

/-- Left-rotate a 32-bit word (`x < 2^32`) by `n ≤ 32` bits. -/
def rotl32 (x n : Nat) : Nat := (x * 2 ^ n + x / 2 ^ (32 - n)) % 4294967296

/-- Big-endian 8-byte encoding of a bit length. -/
def lenBytes8 (n : Nat) : List Nat :=
  [n / 2 ^ 56 % 256, n / 2 ^ 48 % 256, n / 2 ^ 40 % 256, n / 2 ^ 32 % 256,
   n / 2 ^ 24 % 256, n / 2 ^ 16 % 256, n / 2 ^ 8 % 256, n % 256]

/-- Big-endian packing of bytes into 32-bit words (groups of 4). -/
def bytesToWords : List Nat → List Nat
  | b1 :: b2 :: b3 :: b4 :: rest =>
    (b1 * 16777216 + b2 * 65536 + b3 * 256 + b4) :: bytesToWords rest
  | _ => []

/-- Big-endian bytes of a 32-bit word. -/
def wordBytes (w : Nat) : List Nat :=
  [w / 16777216 % 256, w / 65536 % 256, w / 256 % 256, w % 256]

/-- Split a (padded) message into 64-byte blocks, structurally. -/
def chunks64Aux : List Nat → List Nat → List (List Nat)
  | cur, [] => if cur = [] then [] else [cur]
  | cur, b :: rest =>
    if cur.length = 63 then (cur ++ [b]) :: chunks64Aux [] rest
    else chunks64Aux (cur ++ [b]) rest

/-- SHA-1 padding: append `0x80`, zeros, and the 64-bit bit length. -/
def sha1Pad (msg : List Nat) : List Nat :=
  let len := msg.length
  let zeros := (64 + 56 - (len + 1) % 64) % 64
  msg ++ [128] ++ List.replicate zeros 0 ++ lenBytes8 (8 * len)

/-- Message-schedule expansion from 16 to 80 words. -/
def sha1ExpandAux : Nat → List Nat → List Nat
  | 0, w => w
  | n + 1, w =>
    let i := w.length
    let x := rotl32 (((w.getD (i - 3) 0) ^^^ (w.getD (i - 8) 0)) ^^^
                     ((w.getD (i - 14) 0) ^^^ (w.getD (i - 16) 0))) 1
    sha1ExpandAux n (w ++ [x])

def sha1Expand (w : List Nat) : List Nat := sha1ExpandAux 64 w

/-- Round function `f_t`. -/
def sha1F (t b c d : Nat) : Nat :=
  if t < 20 then (b &&& c) ||| ((b ^^^ 4294967295) &&& d)
  else if t < 40 then (b ^^^ c) ^^^ d
  else if t < 60 then ((b &&& c) ||| (b &&& d)) ||| (c &&& d)
  else (b ^^^ c) ^^^ d

/-- Round constant `K_t`. -/
def sha1K (t : Nat) : Nat :=
  if t < 20 then 1518500249
  else if t < 40 then 1859775393
  else if t < 60 then 2400959708
  else 3395469782

/-- The 80 compression rounds, consuming the expanded schedule. -/
def sha1RoundAux : Nat → List Nat → Nat × Nat × Nat × Nat × Nat → Nat × Nat × Nat × Nat × Nat
  | _, [], st => st
  | t, wt :: rest, (a, b, c, d, e) =>
    let tmp := u32 (rotl32 a 5 + sha1F t b c d + e + sha1K t + wt)
    sha1RoundAux (t + 1) rest (tmp, a, rotl32 b 30, c, d)

/-- One 64-byte block of SHA-1. -/
def sha1Block (h : Nat × Nat × Nat × Nat × Nat) (block : List Nat) :
    Nat × Nat × Nat × Nat × Nat :=
  let w := sha1Expand (bytesToWords block)
  match sha1RoundAux 0 w h with
  | (a, b, c, d, e) =>
    (u32 (h.1 + a), u32 (h.2.1 + b), u32 (h.2.2.1 + c), u32 (h.2.2.2.1 + d), u32 (h.2.2.2.2 + e))

/-- SHA-1 of a byte sequence, as 20 digest bytes. -/
def sha1 (msg : List Nat) : List Nat :=
  let blocks := chunks64Aux [] (sha1Pad msg)
  match blocks.foldl sha1Block (1732584193, 4023233417, 2562383102, 271733878, 3285377520) with
  | (h0, h1, h2, h3, h4) =>
    wordBytes h0 ++ wordBytes h1 ++ wordBytes h2 ++ wordBytes h3 ++ wordBytes h4

/-! ## Base64 (model of the `base64` 0.x crate, `STANDARD` config) -/

/-- The standard base64 alphabet. -/
def b64Alphabet : List Char :=
  "ABCDEFGHIJKLMNOPQRSTUVWXYZabcdefghijklmnopqrstuvwxyz0123456789+/".data

/-- Symbol for a 6-bit value. -/
def b64Char (n : Nat) : Char := b64Alphabet.getD n '?'

/-- `base64::encode`: 3 bytes become 4 symbols; the tail is padded with `=`. -/
def base64EncodeChars : List Nat → List Char
  | [] => []
  | [b1] => [b64Char (b1 / 4), b64Char (b1 % 4 * 16), '=', '=']
  | [b1, b2] => [b64Char (b1 / 4), b64Char (b1 % 4 * 16 + b2 / 16), b64Char (b2 % 16 * 4), '=']
  | b1 :: b2 :: b3 :: rest =>
    b64Char (b1 / 4) :: b64Char (b1 % 4 * 16 + b2 / 16) ::
    b64Char (b2 % 16 * 4 + b3 / 64) :: b64Char (b3 % 64) :: base64EncodeChars rest

def base64EncodeStr (bs : List Nat) : String := String.mk (base64EncodeChars bs)

/-- Value of a base64 symbol, `none` for a character outside the alphabet. -/
def b64Val (c : Char) : Option Nat :=
  if 'A' ≤ c ∧ c ≤ 'Z' then some (c.toNat - 65)
  else if 'a' ≤ c ∧ c ≤ 'z' then some (c.toNat - 97 + 26)
  else if '0' ≤ c ∧ c ≤ '9' then some (c.toNat - 48 + 52)
  else if c = '+' then some 62
  else if c = '/' then some 63
  else none

/-- Reassemble bytes from 6-bit symbol values; a final chunk of 2 or 3
symbols must have its unused low bits zero (`DecodeError::InvalidLastSymbol`
in `base64` ≥ 0.10). -/
def b64Bytes : List Nat → Option (List Nat)
  | [] => some []
  | [_] => none
  | [v1, v2] => if v2 % 16 = 0 then some [v1 * 4 + v2 / 16] else none
  | [v1, v2, v3] =>
    if v3 % 4 = 0 then some [v1 * 4 + v2 / 16, v2 % 16 * 16 + v3 / 4] else none
  | v1 :: v2 :: v3 :: v4 :: rest =>
    (b64Bytes rest).map fun bs =>
      (v1 * 4 + v2 / 16) :: (v2 % 16 * 16 + v3 / 4) :: (v3 % 4 * 64 + v4) :: bs

/-- Count the trailing `=` padding characters (at most 2 are meaningful). -/
def b64PadCount (cs : List Char) : Nat :=
  match cs.reverse with
  | '=' :: '=' :: _ => 2
  | '=' :: _ => 1
  | _ => 0

/-- `base64::decode` with the `STANDARD` config of the 0.x series: padding is
optional, but when present the total length must be a multiple of 4; any
character outside the alphabet (including an interior `=`) is rejected. -/
def base64Decode (s : String) : Option (List Nat) :=
  let cs := s.data
  let pads := b64PadCount cs
  let body := cs.take (cs.length - pads)
  if pads > 0 ∧ cs.length % 4 ≠ 0 then none
  else match body.mapM b64Val with
    | none => none
    | some vals => b64Bytes vals

/-! ## Character/string helpers

The Rust code parses header values with `str::split`, `str::trim` and
`unicase::Ascii` equality.  These are re-implemented structurally on
`List Char` so that every definition evaluates by kernel reduction. -/

def strBytes (s : String) : List Nat := s.data.map Char.toNat

/-- `str::split(sep)`. -/
def splitOnChar (sep : Char) : List Char → List (List Char)
  | [] => [[]]
  | c :: rest =>
    match splitOnChar sep rest with
    | [] => [[]]
    | group :: groups =>
      if c = sep then [] :: group :: groups else (c :: group) :: groups

/-- `str::trim` (whitespace stripped from both ends). -/
def trimChars (cs : List Char) : List Char :=
  ((cs.dropWhile Char.isWhitespace).reverse.dropWhile Char.isWhitespace).reverse

/-- `unicase::Ascii` equality: ASCII case-insensitive string comparison. -/
def asciiEqStr (a b : String) : Bool :=
  a.data.map Char.toLower == b.data.map Char.toLower

/-- The `split(',') … trim … drop empty` pipeline shared by the
`Connection`, `Upgrade` and protocol-list header parsers. -/
def commaTokens (v : String) : List String :=
  ((splitOnChar ',' v.data).map fun g => String.mk (trimChars g)).filter fun t => t ≠ ""

def joinCommaSp : List String → String
  | [] => ""
  | [s] => s
  | s :: rest => s ++ ", " ++ joinCommaSp rest

/-! ## Header map (model of `http::HeaderMap`)

`http::HeaderMap` is a multimap whose names are normalised to lowercase on
construction; `get` returns the first value stored for a name, `append`
adds a value keeping existing ones, `insert` replaces all values of the
name, and `extend` behaves like `insert` for the first occurrence of each
name in the iterator and `append` for subsequent occurrences.  The model is
an ordered association list whose names are kept lowercase by convention. -/

abbrev HeaderMap := List (String × String)

/-- `HeaderMap::get`: first value stored for the (lowercase) name. -/
def headerGet (h : HeaderMap) (name : String) : Option String :=
  (h.find? fun e => e.1 == name).map fun e => e.2

/-- `HeaderMap::append`. -/
def headerAppend (h : HeaderMap) (name value : String) : HeaderMap :=
  h ++ [(name, value)]

/-- `HeaderMap::insert`: drop all values of the name, then add the new one. -/
def headerInsert (h : HeaderMap) (name value : String) : HeaderMap :=
  (h.filter fun e => e.1 ≠ name) ++ [(name, value)]

def headerExtendAux (h : HeaderMap) (seen : List String) : HeaderMap → HeaderMap
  | [] => h
  | (n, v) :: rest =>
    if seen.contains n then headerExtendAux (headerAppend h n v) seen rest
    else headerExtendAux (headerInsert h n v) (n :: seen) rest

/-- `HeaderMap::extend` over another map's entries. -/
def headerExtend (h delta : HeaderMap) : HeaderMap := headerExtendAux h [] delta

/-! ## WebSocket header types (`src/header/…`) -/

/-- `header::sec_websocket_version::WebSocketVersion`. -/
inductive WebSocketVersion where
  | WebSocket13
  | Unknown (s : String)
deriving DecidableEq

/-- `WebSocketVersion::from_str`: trim, then `"13"` or `Unknown` (total). -/
def WebSocketVersion.from_str (v : String) : WebSocketVersion :=
  let t := String.mk (trimChars v.data)
  if t = "13" then .WebSocket13 else .Unknown t

/-- `header::connection::ConnectionOption`. -/
inductive ConnectionOption where
  | KeepAlive
  | Close
  | ConnectionHeader (s : String)
deriving DecidableEq

/-- `ConnectionOption::from_str` (total; comparison is ASCII-insensitive). -/
def ConnectionOption.from_str (s : String) : ConnectionOption :=
  if asciiEqStr s "keep-alive" then .KeepAlive
  else if asciiEqStr s "close" then .Close
  else .ConnectionHeader s

/-- `Connection::from_str`: comma list, trimmed, empties dropped. -/
def Connection.from_str (s : String) : List ConnectionOption :=
  (commaTokens s).map ConnectionOption.from_str

def ConnectionOption.render : ConnectionOption → String
  | .KeepAlive => "keep-alive"
  | .Close => "close"
  | .ConnectionHeader s => s

/-- `From<Connection> for HeaderValue`: the options joined by `", "`. -/
def connectionToValue (opts : List ConnectionOption) : String :=
  joinCommaSp (opts.map ConnectionOption.render)

/-- `header::upgrade::ProtocolName`. -/
inductive ProtocolName where
  | HTTP
  | TLS
  | WebSocket
  | H2C
  | Unregistered (s : String)
deriving DecidableEq, BEq

/-- `ProtocolName::from_str` (total; `websocket` is ASCII-insensitive). -/
def ProtocolName.from_str (s : String) : ProtocolName :=
  if s = "HTTP" then .HTTP
  else if s = "TLS" then .TLS
  else if s = "h2c" then .H2C
  else if asciiEqStr s "websocket" then .WebSocket
  else .Unregistered s

/-- `header::upgrade::Protocol`. -/
structure Protocol where
  name : ProtocolName
  version : Option String
deriving DecidableEq

/-- `Protocol::from_str`: split once at `/`, the rest is the version. -/
def Protocol.from_str (s : String) : Protocol :=
  let cs := s.data
  let before := cs.takeWhile fun c => c ≠ '/'
  match cs.dropWhile fun c => c ≠ '/' with
  | [] => ⟨ProtocolName.from_str (String.mk before), none⟩
  | _ :: rest => ⟨ProtocolName.from_str (String.mk before), some (String.mk rest)⟩

/-- `Upgrade::from_str`: comma list of protocols. -/
def Upgrade.from_str (s : String) : List Protocol :=
  (commaTokens s).map Protocol.from_str

def ProtocolName.render : ProtocolName → String
  | .HTTP => "HTTP"
  | .TLS => "TLS"
  | .WebSocket => "websocket"
  | .H2C => "h2c"
  | .Unregistered s => s

def Protocol.render (p : Protocol) : String :=
  p.name.render ++ (match p.version with | some v => "/" ++ v | none => "")

/-- `From<Upgrade> for HeaderValue`. -/
def upgradeToValue (ps : List Protocol) : String :=
  joinCommaSp (ps.map Protocol.render)

/-! ## Key and accept token (`src/header/sec_websocket_key.rs`,
`src/header/sec_websocket_accept.rs`) -/

def MAGIC_GUID : String := "258EAFA5-E914-47DA-95CA-C5AB0DC85B11"

/-- `WebSocketKey::from_str`: base64-decode, require exactly 16 bytes. -/
def WebSocketKey.from_str (key : String) : Except String (List Nat) :=
  match base64Decode key with
  | some vec =>
    if vec.length ≠ 16 then .error "Sec-WebSocket-Key must be 16 bytes"
    else .ok vec
  | none => .error "Invalid Sec-WebSocket-Accept"

/-- `WebSocketAccept::new`: serialize the key back to base64 (the
`Display` of `WebSocketKey`), append the GUID, and SHA-1 the result. -/
def webSocketAcceptNew (key : List Nat) : List Nat :=
  let serialized := base64EncodeStr key
  let concatKey := serialized ++ MAGIC_GUID
  sha1 (strBytes concatKey)

/-- `Display for WebSocketAccept`: base64 of the 20 digest bytes. -/
def acceptDisplay (digest : List Nat) : String := base64EncodeStr digest

/-- Modelled from the spec §4.2: `accept(key_b64) =
base64(SHA-1(key_b64 ‖ GUID))`, applied to a key *string*.  This is the
comparison point for the refinement claims; the code-side computation is
`acceptDisplay ∘ webSocketAcceptNew` above. -/
def accept_spec_string (keyStr : String) : String :=
  base64EncodeStr (sha1 (strBytes (keyStr ++ MAGIC_GUID)))

/-! ## `validate` (`src/server/upgrade/mod.rs`) -/

/-- `http::Method`, reduced to the comparison the code performs. -/
inductive Method where
  | GET
  | otherMethod (s : String)
deriving DecidableEq

def Method.from_str (s : String) : Method :=
  if s = "GET" then .GET else .otherMethod s

/-- `http::Version`. -/
inductive HttpVersion where
  | HTTP_09
  | HTTP_10
  | HTTP_11
  | HTTP_2
  | HTTP_3
deriving DecidableEq

/-- `codec::http::HttpCodecError` (the `Io` payload is opaque). -/
inductive HttpCodecError where
  | Method
  | Version
  | Uri
  | Header
  | TooLarge
  | Status
  | Io
deriving DecidableEq

/-- `server::upgrade::HyperIntoWsError` (payloads of `Io` opaque). -/
inductive HyperIntoWsError where
  | MethodNotGet
  | UnsupportedHttpVersion
  | UnsupportedWebsocketVersion
  | NoSecWsKeyHeader
  | NoWsUpgradeHeader
  | NoUpgradeHeader
  | NoWsConnectionHeader
  | NoConnectionHeader
  | Io
  | Http (e : HttpCodecError)
deriving DecidableEq

/-- The `check_connection_header` helper nested in `validate`. -/
def checkConnectionHeader (opts : List ConnectionOption) : Bool :=
  opts.any fun o =>
    match o with
    | .ConnectionHeader h => asciiEqStr h "upgrade"
    | _ => false

/-- The key/upgrade/connection checks of `validate` (everything after the
version-header check). -/
def validateTail (headers : HeaderMap) : Except HyperIntoWsError Unit :=
  if (headerGet headers "sec-websocket-key").isNone then .error .NoSecWsKeyHeader
  else
    match headerGet headers "upgrade" with
    | some v =>
      if (Upgrade.from_str v).all (fun u => u.name != ProtocolName.WebSocket) then
        .error .NoWsUpgradeHeader
      else
        match headerGet headers "connection" with
        | some cv =>
          if checkConnectionHeader (Connection.from_str cv) then .ok ()
          else .error .NoWsConnectionHeader
        | none => .error .NoConnectionHeader
    | none => .error .NoUpgradeHeader

/-- `validate` from `src/server/upgrade/mod.rs:272`.  The HTTP-version test
is transcribed exactly as written in the source:
`*version == Version::HTTP_09 || *version == Version::HTTP_09` — the same
operand twice, so `HTTP_10` is never rejected. -/
def validate (method : Method) (version : HttpVersion) (headers : HeaderMap) :
    Except HyperIntoWsError Unit :=
  if method ≠ .GET then .error .MethodNotGet
  else if version = .HTTP_09 ∨ version = .HTTP_09 then .error .UnsupportedHttpVersion
  else
    match headerGet headers "sec-websocket-version" with
    | some v =>
      if WebSocketVersion.from_str v ≠ .WebSocket13 then .error .UnsupportedWebsocketVersion
      else validateTail headers
    | none => validateTail headers

/-! ## `prepare_headers` (`src/server/upgrade/mod.rs:166`) -/

/-- `WsUpgrade::prepare_headers`: extend the response headers with the
caller's extras, then *append* `Sec-WebSocket-Accept` (computed from the
re-decoded key), `Connection: Upgrade` and `Upgrade: websocket`, returning
status 101.  The source `unwrap`s the key lookup and its parse (valid
requests always carry a key); those panics are modelled as `none`. -/
def prepare_headers (selfHeaders requestHeaders : HeaderMap) (custom : Option HeaderMap) :
    Option (Nat × HeaderMap) :=
  let hs := match custom with
    | some c => headerExtend selfHeaders c
    | none => selfHeaders
  match headerGet requestHeaders "sec-websocket-key" with
  | none => none
  | some kv =>
    match WebSocketKey.from_str kv with
    | .error _ => none
    | .ok key =>
      let hs := headerAppend hs "sec-websocket-accept" (acceptDisplay (webSocketAcceptNew key))
      let hs := headerAppend hs "connection"
        (connectionToValue [ConnectionOption.ConnectionHeader "Upgrade"])
      let hs := headerAppend hs "upgrade" (upgradeToValue [⟨ProtocolName.WebSocket, none⟩])
      some (101, hs)

/-! ## Masking (`src/ws/util/mask.rs`) -/

/-- The 4-byte mask key cycled over byte positions (`mask.iter().cycle()`). -/
def cycleKey (k : Nat × Nat × Nat × Nat) (i : Nat) : Nat :=
  match i % 4 with
  | 0 => k.1
  | 1 => k.2.1
  | 2 => k.2.2.1
  | _ => k.2.2.2

/-- `mask_data`: `out[i] = data[i] XOR key[i mod 4]`. -/
def mask_data (k : Nat × Nat × Nat × Nat) (data : List Nat) : List Nat :=
  data.enum.map fun p => p.2 ^^^ cycleKey k p.1

/-! ## `httparse::Request::parse` model

The handshake paths hand raw bytes to `httparse`.  The model keeps the
structure that the claims depend on: leading empty lines are skipped, the
request line and each header line end at `\r\n` or a bare `\n`, and the
head is complete exactly when the header section is terminated by an empty
line.  Header capacity mirrors the `&mut [Header]` slice the caller
supplies (`0` in `into_ws`, `MAX_HEADERS = 100` in the codec); a header
beyond capacity is `Error::TooManyHeaders`.  Finer error classification is
collapsed into a single error outcome. -/

/-- The fields of a parsed `httparse::Request`. -/
structure HtRequest where
  method : String
  path : String
  version : Nat
  headers : List (String × String)
deriving DecidableEq

inductive HtLoopRes where
  | complete (hdrs : List (String × String))
  | needMore
  | parseErr
deriving DecidableEq

inductive HtResult where
  | complete (req : HtRequest)
  | needMore
  | parseErr
deriving DecidableEq

def HtResult.isComplete : HtResult → Bool
  | .complete _ => true
  | _ => false

/-- Split off the first line: content before the terminator (`\r\n` or a
bare `\n`) and the remainder after it; `none` when no terminator is
present yet. -/
def splitLine : List Char → Option (List Char × List Char)
  | [] => none
  | c :: rest =>
    if c = '\n' then some ([], rest)
    else if c = '\r' ∧ rest.head? = some '\n' then some ([], rest.tail)
    else (splitLine rest).map fun p => (c :: p.1, p.2)

/-- `httparse` skips empty lines before the request line. -/
def dropEmptyLines : List Char → List Char
  | [] => []
  | c :: rest =>
    if c = '\n' then dropEmptyLines rest
    else if c = '\r' then
      match rest with
      | '\n' :: rest2 => dropEmptyLines rest2
      | _ => c :: rest
    else c :: rest

/-- Does the remaining input start with a line terminator (the empty line
ending the header section)? -/
def startsWithEol (cs : List Char) : Bool :=
  decide (cs.head? = some '\n') ||
  decide (cs.head? = some '\r' ∧ cs.tail.head? = some '\n')

/-- `HTTP/1.x` version token: the minor digit. -/
def parseVersionToken (v : List Char) : Option Nat :=
  match v with
  | ['H', 'T', 'T', 'P', '/', '1', '.', d] =>
    if d.isDigit then some (d.toNat - 48) else none
  | _ => none

/-- Request line `METHOD SP PATH SP HTTP/1.x`. -/
def parseRequestLine (l : List Char) : Option (String × String × Nat) :=
  match splitOnChar ' ' l with
  | [m, p, v] =>
    if m = [] ∨ p = [] then none
    else (parseVersionToken v).map fun d => (String.mk m, String.mk p, d)
  | _ => none

/-- One `name: value` header line; the value is trimmed of OWS. -/
def parseHeaderLine (l : List Char) : Option (String × String) :=
  let name := l.takeWhile fun c => c ≠ ':'
  match l.dropWhile fun c => c ≠ ':' with
  | ':' :: value =>
    if name = [] then none else some (String.mk name, String.mk (trimChars value))
  | _ => none

/-- The header-section loop.  `fuel` is an upper bound on the characters
still to consume (callers pass `cs.length + 1`), keeping the recursion
structural; every recursive step consumes at least the line terminator, so
the fuel branch is unreachable from those call sites. -/
def parseHeadersLoopF : Nat → Nat → List Char → List (String × String) → HtLoopRes
  | 0, _, _, _ => .needMore
  | fuel + 1, maxH, cs, acc =>
    if startsWithEol cs then .complete acc
    else if cs.isEmpty then .needMore
    else
      match splitLine cs with
      | none => .needMore
      | some (l, rest) =>
        if maxH ≤ acc.length then .parseErr
        else
          match parseHeaderLine l with
          | none => .parseErr
          | some hv => parseHeadersLoopF fuel maxH rest (acc ++ [hv])

/-- `httparse::Request::parse` with header capacity `maxH`. -/
def htParseRequest (maxH : Nat) (cs : List Char) : HtResult :=
  match splitLine (dropEmptyLines cs) with
  | none => .needMore
  | some (l, rest) =>
    match parseRequestLine l with
    | none => .parseErr
    | some (m, p, v) =>
      match parseHeadersLoopF (rest.length + 1) maxH rest [] with
      | .complete hdrs => .complete ⟨m, p, v, hdrs⟩
      | .needMore => .needMore
      | .parseErr => .parseErr

/-! ## Request head and the synchronous `into_ws`
(`src/server/upgrade/sync.rs:166`) -/

/-- `codec::http::RequestHead` (`MessageHead<RequestLine>`); the subject is
the `(Method, Uri)` request line, the Uri kept as a string. -/
structure RequestHead where
  version : HttpVersion
  subject : Method × String
  headers : HeaderMap
deriving DecidableEq

/-- The `WsUpgrade` value produced on success (the stream is outside the
model; the buffer is the text read so far). -/
structure WsUpgradeModel where
  headers : HeaderMap
  request : RequestHead
  buffer : String
deriving DecidableEq

/-- The `RequestHead` constructed by `into_ws` (sync.rs lines 197–220) from
the `httparse` result: the version is mapped (`Some(0) → HTTP_10`,
`Some(1) → HTTP_11`, anything else is `Error::Version`), the method and
path are parsed, and `headers` is the literal `HeaderMap::new()` — the
parsed headers are never copied in. -/
def intoWs_buildRequest (p : HtRequest) : Except HyperIntoWsError RequestHead :=
  match p.version with
  | 0 => .ok ⟨.HTTP_10, (Method.from_str p.method, p.path), []⟩
  | 1 => .ok ⟨.HTTP_11, (Method.from_str p.method, p.path), []⟩
  | _ => .error (.Http HttpCodecError.Version)

def exceptIsOk : Except ε α → Bool
  | .ok _ => true
  | .error _ => false

/-- `<S as IntoWs>::into_ws`: read one line (`BufRead::read_line`), parse it
with `httparse::Request::new(&mut [])` (zero header capacity), demand a
`Complete` status, build the `RequestHead`, and `validate` it.  A `Partial`
parse is surfaced as `httparse::Error::HeaderValue` (an `Http` error). -/
def into_ws (input : String) : Except HyperIntoWsError WsUpgradeModel :=
  match htParseRequest 0 input.data with
  | .complete parsed =>
    match intoWs_buildRequest parsed with
    | .error e => .error e
    | .ok request =>
      match validate request.subject.1 request.version request.headers with
      | .ok _ => .ok ⟨[], request, input⟩
      | .error e => .error e
  | .needMore => .error (.Http HttpCodecError.Header)
  | .parseErr => .error (.Http HttpCodecError.Header)

/-! ## `HttpServerCodec::decode` (`src/codec/http.rs`) -/

/-- Position of the first `\r\n\r\n` window in the buffer
(`src.windows(4).position(|i| i == b"\r\n\r\n")`). -/
def findCrlfCrlf : List Char → Option Nat
  | '\r' :: '\n' :: '\r' :: '\n' :: _ => some 0
  | _ :: rest => (findCrlfCrlf rest).map fun p => p + 1
  | [] => none

/-- `split_off_http`: split the head (terminator included) off the front of
the buffer, or `None` leaving the buffer untouched. -/
def split_off_http (src : List Char) : Option (List Char × List Char) :=
  match findCrlfCrlf src with
  | some p => some (src.take (p + 4), src.drop (p + 4))
  | none => none

/-- Header names are normalised to lowercase when entering `HeaderMap`. -/
def toHeaderMap (hs : List (String × String)) : HeaderMap :=
  hs.map fun e => (String.mk (e.1.data.map Char.toLower), e.2)

/-- `HttpServerCodec::decode`, with the mutable `BytesMut` buffer made
explicit: the result is paired with the buffer contents after the call.
Without a `\r\n\r\n` terminator the buffer is returned unchanged with
`Ok(None)`.  In the split-off branch the version mapping is the one in the
source (`1 → HTTP_11`, anything else `HTTP_10`). -/
def HttpServerCodec.decode (src : List Char) :
    Except HttpCodecError (Option RequestHead) × List Char :=
  match split_off_http src with
  | none => (.ok none, src)
  | some (buf, rest) =>
    if buf.length = 0 then (.ok none, rest)
    else
      match htParseRequest 100 buf with
      | .needMore => (.ok none, rest)
      | .parseErr => (.error .Header, rest)
      | .complete p =>
        let version := if p.version = 1 then HttpVersion.HTTP_11 else HttpVersion.HTTP_10
        (.ok (some ⟨version, (Method.from_str p.method, p.path), toHeaderMap p.headers⟩), rest)

/-! ## Helper lemmas -/

theorem mask_data_length (k : Nat × Nat × Nat × Nat) (d : List Nat) :
    (mask_data k d).length = d.length := by
  simp [mask_data]

theorem mask_data_getElem (k : Nat × Nat × Nat × Nat) (d : List Nat) (i : Nat)
    (h : i < d.length) (h2 : i < (mask_data k d).length) :
    (mask_data k d)[i] = d[i] ^^^ cycleKey k i := by
  simp [mask_data]

/-! ## Claims -/

/-- C6: for every 4-byte key `k` and byte sequence `d` (the empty sequence
included), `mask_data k (mask_data k d) = d`; moreover `mask_data k d` has
the same length as `d` and its byte `i` is `d[i] XOR k[i mod 4]`. -/
theorem C6_mask_involution :
    ∀ (k : Nat × Nat × Nat × Nat) (d : List Nat),
      mask_data k (mask_data k d) = d ∧
      (mask_data k d).length = d.length ∧
      ∀ i, i < d.length → (mask_data k d).getD i 0 = d.getD i 0 ^^^ cycleKey k i := by
  intro k d
  refine ⟨?_, mask_data_length k d, ?_⟩
  · apply List.ext_getElem (by simp [mask_data_length])
    intro i h1 h2
    rw [mask_data_getElem k _ i (by simpa [mask_data_length] using h1) h1,
        mask_data_getElem k d i (by simpa [mask_data_length] using h1)
          (by simpa [mask_data_length] using h1)]
    rw [Nat.xor_assoc, Nat.xor_self, Nat.xor_zero]
  · intro i h
    have h2 : i < (mask_data k d).length := by simpa [mask_data_length] using h
    rw [List.getD_eq_getElem _ _ h2, List.getD_eq_getElem _ _ h]
    exact mask_data_getElem k d i h h2

/-- C6 witness: the involution and the pointwise law at a concrete key and
payload (the key/payload of the crate's own `test_mask_data`). -/
theorem C6_mask_involution_witness :
    mask_data (1, 2, 3, 4) (mask_data (1, 2, 3, 4) [10, 11, 12, 13, 14, 15, 16, 17]) =
      [10, 11, 12, 13, 14, 15, 16, 17] ∧
    (mask_data (1, 2, 3, 4) [10, 11, 12, 13, 14, 15, 16, 17]).getD 4 0 =
      14 ^^^ cycleKey (1, 2, 3, 4) 4 := by
  have h := C6_mask_involution (1, 2, 3, 4) [10, 11, 12, 13, 14, 15, 16, 17]
  exact ⟨h.1, h.2.2 4 (by decide)⟩

/-- C1: the accept token of `WebSocketAccept::new` rendered by `Display` is
`base64(SHA-1(base64(key) ‖ GUID))` for every 16-byte key, and on the
RFC 6455 sample key `dGhlIHNhbXBsZSBub25jZQ==` (which `WebSocketKey::from_str`
decodes to the bytes of `"the sample nonce"`) it is exactly
`s3pPLMBiTxaQ9kYGzzhZRbK+xOo=`. -/
theorem C1_accept_correct :
    (∀ key : List Nat,
       acceptDisplay (webSocketAcceptNew key) = accept_spec_string (base64EncodeStr key)) ∧
    WebSocketKey.from_str "dGhlIHNhbXBsZSBub25jZQ==" =
      .ok [116, 104, 101, 32, 115, 97, 109, 112, 108, 101, 32, 110, 111, 110, 99, 101] ∧
    acceptDisplay (webSocketAcceptNew
        [116, 104, 101, 32, 115, 97, 109, 112, 108, 101, 32, 110, 111, 110, 99, 101]) =
      "s3pPLMBiTxaQ9kYGzzhZRbK+xOo=" :=
  ⟨fun _ => rfl, rfl, rfl⟩

/-- C2: contrary to the claim, `validate` accepts an HTTP/1.0 upgrade
request: the version guard compares against `HTTP_09` twice, so only
HTTP/0.9 is rejected with `UnsupportedHttpVersion`.  The theorem evaluates
the code at the failing input (an otherwise fully conforming HTTP/1.0
request) and at HTTP/0.9. -/
theorem C2_http10_accepted :
    validate .GET .HTTP_10
      [("sec-websocket-version", "13"), ("sec-websocket-key", "dGhlIHNhbXBsZSBub25jZQ=="),
       ("upgrade", "websocket"), ("connection", "Upgrade")] = .ok () ∧
    validate .GET .HTTP_09
      [("sec-websocket-version", "13"), ("sec-websocket-key", "dGhlIHNhbXBsZSBub25jZQ=="),
       ("upgrade", "websocket"), ("connection", "Upgrade")] = .error .UnsupportedHttpVersion :=
  ⟨rfl, rfl⟩

/-- C3 (amended): when `Sec-WebSocket-Version` is *present* with a value
other than `13` (after trimming), `validate` rejects it with the
unsupported-WebSocket-version error.  (An absent header is not checked;
see the counterexample.) -/
theorem C3_version_present_checked :
    ∀ (h : HeaderMap) (v : String),
      headerGet h "sec-websocket-version" = some v →
      String.mk (trimChars v.data) ≠ "13" →
      validate .GET .HTTP_11 h = .error .UnsupportedWebsocketVersion := by
  intro h v hget htrim
  have hv : WebSocketVersion.from_str v = .Unknown (String.mk (trimChars v.data)) := by
    unfold WebSocketVersion.from_str
    simp [htrim]
  simp [validate, hget, hv]

/-- C3 witness: a request carrying `Sec-WebSocket-Version: 12` is rejected. -/
theorem C3_version_present_checked_witness :
    validate .GET .HTTP_11 [("sec-websocket-version", "12")] =
      .error .UnsupportedWebsocketVersion :=
  C3_version_present_checked [("sec-websocket-version", "12")] "12" rfl (by decide)

/-- C3 counterexample: a request *without* any `Sec-WebSocket-Version`
header passes `validate` (the version check is skipped when the header is
absent), contradicting the claim that absence is rejected. -/
theorem C3_counterexample_absent_version_ok :
    validate .GET .HTTP_11
      [("sec-websocket-key", "dGhlIHNhbXBsZSBub25jZQ=="),
       ("upgrade", "websocket"), ("connection", "Upgrade")] = .ok () ∧
    headerGet
      [("sec-websocket-key", "dGhlIHNhbXBsZSBub25jZQ=="),
       ("upgrade", "websocket"), ("connection", "Upgrade")] "sec-websocket-version" = none :=
  ⟨rfl, rfl⟩

/-- C4 (amended): `validate` only tests that `Sec-WebSocket-Key` is
*present*: any value at all (decodable or not) passes the key check, and
absence is rejected with the missing-key error.  The value is only
base64-decoded later, by `WebSocketKey::from_str` inside `prepare_headers`. -/
theorem C4_key_presence_only :
    (∀ kv : String,
       validate .GET .HTTP_11
         [("sec-websocket-version", "13"), ("sec-websocket-key", kv),
          ("upgrade", "websocket"), ("connection", "Upgrade")] = .ok ()) ∧
    validate .GET .HTTP_11
      [("sec-websocket-version", "13"),
       ("upgrade", "websocket"), ("connection", "Upgrade")] = .error .NoSecWsKeyHeader :=
  ⟨fun _ => rfl, rfl⟩

/-- C4 counterexample: a request whose `Sec-WebSocket-Key` value `"!"` is
not base64 at all (so certainly does not decode to 16 bytes) still passes
`validate`, contradicting the claim that such requests are rejected. -/
theorem C4_counterexample_bad_key_ok :
    validate .GET .HTTP_11
      [("sec-websocket-version", "13"), ("sec-websocket-key", "!"),
       ("upgrade", "websocket"), ("connection", "Upgrade")] = .ok () ∧
    base64Decode "!" = none :=
  ⟨rfl, rfl⟩

/-- C7 (amended): the `Sec-WebSocket-Accept` value emitted by
`prepare_headers` is the accept computation applied to the *canonical
base64 re-encoding* of the 16 decoded key bytes (`WebSocketKey::from_str`
then `Display`), not to the client's key string verbatim; the two agree
exactly when the client's string is canonical padded base64. -/
theorem C7_accept_over_reencoded_key :
    ∀ (hs req : HeaderMap) (custom : Option HeaderMap) (kv : String) (key : List Nat)
      (st : Nat) (m : HeaderMap),
      headerGet req "sec-websocket-key" = some kv →
      WebSocketKey.from_str kv = .ok key →
      prepare_headers hs req custom = some (st, m) →
      ("sec-websocket-accept", accept_spec_string (base64EncodeStr key)) ∈ m := by
  intro hs req custom kv key st m hget hkey hp
  cases custom <;>
    simp only [prepare_headers, hget, hkey, headerAppend, Option.some.injEq,
      Prod.mk.injEq] at hp <;>
    obtain ⟨hst, hm⟩ := hp <;>
    subst hm <;>
    exact List.mem_append_left _ (List.mem_append_left _
      (List.mem_append_right _ (List.mem_singleton_self _)))

/-- C7 witness: the accept entry for the sample key, seen as the spec
computation applied to the re-encoded key bytes. -/
theorem C7_accept_over_reencoded_key_witness :
    ("sec-websocket-accept",
      accept_spec_string (base64EncodeStr
        [116, 104, 101, 32, 115, 97, 109, 112, 108, 101, 32, 110, 111, 110, 99, 101])) ∈
      ([("sec-websocket-accept", "s3pPLMBiTxaQ9kYGzzhZRbK+xOo="),
        ("connection", "Upgrade"), ("upgrade", "websocket")] : HeaderMap) :=
  C7_accept_over_reencoded_key [] [("sec-websocket-key", "dGhlIHNhbXBsZSBub25jZQ==")] none
    "dGhlIHNhbXBsZSBub25jZQ=="
    [116, 104, 101, 32, 115, 97, 109, 112, 108, 101, 32, 110, 111, 110, 99, 101]
    101
    [("sec-websocket-accept", "s3pPLMBiTxaQ9kYGzzhZRbK+xOo="),
     ("connection", "Upgrade"), ("upgrade", "websocket")]
    rfl rfl rfl

/-- C7 counterexample: the unpadded key `dGhlIHNhbXBsZSBub25jZQ` is
accepted by validation and decoded by `base64` 0.x (padding optional), but
the accept token is computed over its padded re-encoding: the emitted token
is the one for `dGhlIHNhbXBsZSBub25jZQ==`, which differs from the accept
computation applied to the key string the client actually sent. -/
theorem C7_counterexample_unpadded_key :
    validate .GET .HTTP_11
      [("sec-websocket-version", "13"), ("sec-websocket-key", "dGhlIHNhbXBsZSBub25jZQ"),
       ("upgrade", "websocket"), ("connection", "Upgrade")] = .ok () ∧
    prepare_headers []
      [("sec-websocket-version", "13"), ("sec-websocket-key", "dGhlIHNhbXBsZSBub25jZQ"),
       ("upgrade", "websocket"), ("connection", "Upgrade")] none =
      some (101, [("sec-websocket-accept", "s3pPLMBiTxaQ9kYGzzhZRbK+xOo="),
                  ("connection", "Upgrade"), ("upgrade", "websocket")]) ∧
    accept_spec_string "dGhlIHNhbXBsZSBub25jZQ" ≠ "s3pPLMBiTxaQ9kYGzzhZRbK+xOo=" :=
  ⟨rfl, rfl, by decide⟩

/-- C8 (amended): `prepare_headers` extends the response map with the
caller's extras first, returns status 101, and then *appends*
`Sec-WebSocket-Accept` (from the request key), `Connection: Upgrade` and
`Upgrade: websocket` at the end; on a name collision both values remain in
the map, the caller's first, so the required headers do not replace
caller-supplied ones. -/
theorem C8_response_build :
    ∀ (hs custom req : HeaderMap) (kv : String) (key : List Nat),
      headerGet req "sec-websocket-key" = some kv →
      WebSocketKey.from_str kv = .ok key →
      prepare_headers hs req (some custom) =
        some (101, headerExtend hs custom ++
          [("sec-websocket-accept", acceptDisplay (webSocketAcceptNew key)),
           ("connection", connectionToValue [ConnectionOption.ConnectionHeader "Upgrade"]),
           ("upgrade", upgradeToValue [⟨ProtocolName.WebSocket, none⟩])]) := by
  intro hs custom req kv key hget hkey
  simp [prepare_headers, hget, hkey, headerAppend, List.append_assoc]

/-- C8 witness: the response build at a concrete extra header and the
sample key. -/
theorem C8_response_build_witness :
    prepare_headers [] [("sec-websocket-key", "dGhlIHNhbXBsZSBub25jZQ==")]
        (some [("x-foo", "bar")]) =
      some (101, headerExtend [] [("x-foo", "bar")] ++
        [("sec-websocket-accept", acceptDisplay (webSocketAcceptNew
            [116, 104, 101, 32, 115, 97, 109, 112, 108, 101, 32, 110, 111, 110, 99, 101])),
         ("connection", connectionToValue [ConnectionOption.ConnectionHeader "Upgrade"]),
         ("upgrade", upgradeToValue [⟨ProtocolName.WebSocket, none⟩])]) :=
  C8_response_build [] [("x-foo", "bar")] [("sec-websocket-key", "dGhlIHNhbXBsZSBub25jZQ==")]
    "dGhlIHNhbXBsZSBub25jZQ=="
    [116, 104, 101, 32, 115, 97, 109, 112, 108, 101, 32, 110, 111, 110, 99, 101] rfl rfl

/-- C8 counterexample: with the caller-supplied extra header
`Connection: close`, the required `Connection: Upgrade` is appended *after*
it rather than replacing it; a `HeaderMap::get` (first value) on the
resulting map still yields `close`, so the required header does not win the
collision as claimed. -/
theorem C8_counterexample_required_not_winning :
    prepare_headers [] [("sec-websocket-key", "dGhlIHNhbXBsZSBub25jZQ==")]
        (some [("connection", "close")]) =
      some (101, [("connection", "close"),
                  ("sec-websocket-accept", "s3pPLMBiTxaQ9kYGzzhZRbK+xOo="),
                  ("connection", "Upgrade"), ("upgrade", "websocket")]) ∧
    headerGet [("connection", "close"),
               ("sec-websocket-accept", "s3pPLMBiTxaQ9kYGzzhZRbK+xOo="),
               ("connection", "Upgrade"), ("upgrade", "websocket")] "connection" =
      some "close" :=
  ⟨rfl, rfl⟩

/-! ## Newline-counting lemmas for the `httparse` model

A head can only parse `Complete` after consuming the request-line
terminator *and* reaching the empty line ending the header section, so a
complete head needs at least two `\n` bytes in the input. -/

theorem count_le_count_cons (a b : Char) (l : List Char) :
    l.count a ≤ (b :: l).count a := by
  rw [List.count_cons]
  exact Nat.le_add_right _ _

theorem splitLine_count {cs l r : List Char} (h : splitLine cs = some (l, r)) :
    r.count '\n' + 1 ≤ cs.count '\n' := by
  induction cs generalizing l r with
  | nil => simp [splitLine] at h
  | cons c rest ih =>
    simp only [splitLine] at h
    split at h
    · rename_i hc
      obtain ⟨rfl, rfl⟩ : ([] : List Char) = l ∧ rest = r := by simpa using h
      subst hc
      rw [List.count_cons]
      simp
    · split at h
      · rename_i hc1 hc2
        obtain ⟨hcr, hh⟩ := hc2
        obtain ⟨rfl, rfl⟩ : ([] : List Char) = l ∧ rest.tail = r := by simpa using h
        subst hcr
        cases rest with
        | nil => simp at hh
        | cons r0 rt =>
          have hr0 : r0 = '\n' := by simpa using hh
          subst hr0
          rw [List.count_cons, List.count_cons]
          simp
      · rename_i hc1 hc2
        rw [Option.map_eq_some'] at h
        obtain ⟨⟨l', r'⟩, hsp, heq⟩ := h
        obtain ⟨rfl, rfl⟩ : c :: l' = l ∧ r' = r := by simpa using heq
        exact le_trans (ih hsp) (count_le_count_cons _ _ _)

theorem dropEmptyLines_count (cs : List Char) :
    (dropEmptyLines cs).count '\n' ≤ cs.count '\n' := by
  induction cs using dropEmptyLines.induct with
  | case1 => simp [dropEmptyLines]
  | case2 rest ih =>
    calc (dropEmptyLines ('\n' :: rest)).count '\n'
        = (dropEmptyLines rest).count '\n' := by
          rw [dropEmptyLines.eq_def]
          simp
      _ ≤ rest.count '\n' := ih
      _ ≤ ('\n' :: rest).count '\n' := count_le_count_cons _ _ _
  | case3 rest2 hne ih =>
    calc (dropEmptyLines ('\r' :: '\n' :: rest2)).count '\n'
        = (dropEmptyLines rest2).count '\n' := by
          rw [dropEmptyLines.eq_2, if_neg (by decide), if_pos rfl]
      _ ≤ rest2.count '\n' := ih
      _ ≤ ('\n' :: rest2).count '\n' := count_le_count_cons _ _ _
      _ ≤ ('\r' :: '\n' :: rest2).count '\n' := count_le_count_cons _ _ _
  | case4 rest hno hne =>
    have hd : dropEmptyLines ('\r' :: rest) = '\r' :: rest := by
      rw [dropEmptyLines.eq_3 _ _ hno, if_neg hne, if_pos rfl]
    rw [hd]
  | case5 c rest hc1 hc2 =>
    have hd : dropEmptyLines (c :: rest) = c :: rest := by
      rcases rest with _ | ⟨r0, rt⟩
      · rw [dropEmptyLines.eq_3 _ _ (fun r2 hr => List.noConfusion hr), if_neg hc1, if_neg hc2]
      · by_cases hr0 : r0 = '\n'
        · subst hr0
          rw [dropEmptyLines.eq_2, if_neg hc1, if_neg hc2]
        · rw [dropEmptyLines.eq_3 _ _ ?_, if_neg hc1, if_neg hc2]
          intro r2 hr
          injection hr with h1 h2
          exact hr0 h1
    rw [hd]

theorem startsWithEol_count {cs : List Char} (h : startsWithEol cs = true) :
    1 ≤ cs.count '\n' := by
  unfold startsWithEol at h
  simp only [Bool.or_eq_true, decide_eq_true_eq] at h
  rcases h with h | ⟨h1, h2⟩
  · cases cs with
    | nil => simp at h
    | cons c rest =>
      have hc : c = '\n' := by simpa using h
      subst hc
      simp [List.count_cons]
  · cases cs with
    | nil => simp at h1
    | cons c rest =>
      cases rest with
      | nil => simp at h2
      | cons r0 rt =>
        have hr : r0 = '\n' := by simpa using h2
        subst hr
        calc 1 ≤ ('\n' :: rt).count '\n' := by rw [List.count_cons]; simp
          _ ≤ (c :: '\n' :: rt).count '\n' := count_le_count_cons _ _ _

theorem parseHeadersLoopF_complete_count {fuel maxH : Nat} {cs : List Char}
    {acc hdrs : List (String × String)}
    (h : parseHeadersLoopF fuel maxH cs acc = .complete hdrs) :
    1 ≤ cs.count '\n' := by
  cases fuel with
  | zero => simp [parseHeadersLoopF] at h
  | succ fuel =>
    simp only [parseHeadersLoopF] at h
    split at h
    · rename_i hEol
      exact startsWithEol_count hEol
    · split at h
      · simp at h
      · rcases hsp : splitLine cs with _ | ⟨l, rest⟩
        · rw [hsp] at h; simp at h
        · rw [hsp] at h
          have := splitLine_count hsp
          omega

theorem htParseRequest_complete_count {maxH : Nat} {cs : List Char}
    (h : (htParseRequest maxH cs).isComplete = true) : 2 ≤ cs.count '\n' := by
  unfold htParseRequest at h
  split at h
  · simp [HtResult.isComplete] at h
  · rename_i l rest hsp
    split at h
    · simp [HtResult.isComplete] at h
    · rename_i m p v hrl
      split at h
      · rename_i hdrs hloop
        have h1 := parseHeadersLoopF_complete_count hloop
        have h2 := splitLine_count hsp
        have h3 := dropEmptyLines_count cs
        omega
      · simp [HtResult.isComplete] at h
      · simp [HtResult.isComplete] at h

/-- The request head built by the sync path always has an empty header map. -/
theorem buildRequest_headers_nil (p : HtRequest) (r : RequestHead)
    (h : intoWs_buildRequest p = .ok r) : r.headers = [] := by
  unfold intoWs_buildRequest at h
  split at h <;> cases h <;> rfl

/-- `validate` on an empty header map never succeeds (any method, any
version): either the method is not GET, or the version is HTTP/0.9, or the
key is missing. -/
theorem validate_empty_not_ok (m : Method) (v : HttpVersion) :
    exceptIsOk (validate m v []) = false := by
  cases m with
  | GET => cases v <;> rfl
  | otherMethod s => rfl

/-- C5: the `RequestHead` that the synchronous `into_ws` hands to
`validate` carries an empty header map on every input: the builder always
sets `headers := HeaderMap::new()`, and its output does not depend on the
headers `httparse` parsed at all. -/
theorem C5_sync_headers_dropped :
    (∀ (p : HtRequest) (r : RequestHead), intoWs_buildRequest p = .ok r → r.headers = []) ∧
    (∀ (p q : HtRequest), p.method = q.method → p.path = q.path → p.version = q.version →
      intoWs_buildRequest p = intoWs_buildRequest q) := by
  constructor
  · exact buildRequest_headers_nil
  · intro p q hm hp hv
    cases p
    cases q
    simp only at hm hp hv
    subst hm
    subst hp
    subst hv
    rfl

/-- C5 witness: the builder at a concrete parse (which carried a `Host`
header) yields a request head with no headers, identical to the one built
from the header-free parse. -/
theorem C5_sync_headers_dropped_witness :
    (⟨.HTTP_11, (.GET, "/"), []⟩ : RequestHead).headers = ([] : HeaderMap) ∧
    intoWs_buildRequest ⟨"GET", "/", 1, [("Host", "x")]⟩ =
      intoWs_buildRequest ⟨"GET", "/", 1, []⟩ := by
  have h := C5_sync_headers_dropped
  exact ⟨h.1 ⟨"GET", "/", 1, [("Host", "x")]⟩ ⟨.HTTP_11, (.GET, "/"), []⟩ rfl,
         h.2 ⟨"GET", "/", 1, [("Host", "x")]⟩ ⟨"GET", "/", 1, []⟩ rfl rfl rfl⟩

/-- C9: when the buffer holds no `\r\n\r\n` terminator,
`HttpServerCodec::decode` returns `Ok(None)` and the buffer is unchanged,
so the caller can retry after appending more bytes. -/
theorem C9_decode_without_terminator :
    ∀ src : List Char, findCrlfCrlf src = none →
      HttpServerCodec.decode src = (.ok none, src) := by
  intro src h
  simp [HttpServerCodec.decode, split_off_http, h]

/-- C9 witness: an incomplete request head is left in place with `Ok(None)`. -/
theorem C9_decode_without_terminator_witness :
    HttpServerCodec.decode "GET / HTTP/1.1\r\nHost: x\r\n".data =
      (.ok none, "GET / HTTP/1.1\r\nHost: x\r\n".data) :=
  C9_decode_without_terminator _ (by decide)

/-- C10: the synchronous `into_ws` for raw streams never returns `Ok`:
(1) the single line read by `read_line` holds at most one `\n`, and a
`Complete` `httparse` head needs two line terminators, so the parse never
completes; (2) even on a complete parse, `validate` runs on the empty
header map, which fails — with the missing-key error whenever the request
line was a well-formed GET (any version the guard lets through); (3) hence
every call errors, on every input whatsoever. -/
theorem C10_into_ws_never_ok :
    (∀ s : String, s.data.count '\n' ≤ 1 → (htParseRequest 0 s.data).isComplete = false) ∧
    (∀ v : HttpVersion, v ≠ .HTTP_09 → validate .GET v [] = .error .NoSecWsKeyHeader) ∧
    (∀ s : String, exceptIsOk (into_ws s) = false) := by
  refine ⟨?_, ?_, ?_⟩
  · intro s hs
    by_contra hc
    have hc2 : (htParseRequest 0 s.data).isComplete = true := by
      simpa using hc
    have := htParseRequest_complete_count hc2
    omega
  · intro v hv
    cases v with
    | HTTP_09 => exact absurd rfl hv
    | HTTP_10 => rfl
    | HTTP_11 => rfl
    | HTTP_2 => rfl
    | HTTP_3 => rfl
  · intro s
    unfold into_ws
    split
    · split
      · rfl
      · rename_i parsed req hb
        split
        · rename_i u hval
          have hh := buildRequest_headers_nil _ _ hb
          have hv := validate_empty_not_ok req.subject.1 req.version
          rw [hh] at hval
          rw [hval] at hv
          simp [exceptIsOk] at hv
        · rfl
    · rfl
    · rfl

/-- C10 witness: a well-formed request line alone (what one `read_line`
yields) does not complete the parse, and `validate` on the empty header
map reports the missing key. -/
theorem C10_into_ws_never_ok_witness :
    (htParseRequest 0 "GET / HTTP/1.1\r\n".data).isComplete = false ∧
    validate .GET .HTTP_11 [] = .error .NoSecWsKeyHeader := by
  have h := C10_into_ws_never_ok
  exact ⟨h.1 "GET / HTTP/1.1\r\n" (by decide), h.2.1 .HTTP_11 (by decide)⟩

end RW
